import Mathlib

/-!
# modern_nodejs_boilerplate: configuration, router and application assembly

A shallow embedding of `src/config/environtment.js`, `src/routes/exampleRoutes.js`
and `src/app.js`.  JavaScript values that the code manipulates are embedded as a
small value type, the process environment as a finite lookup from variable names
to strings, and the Express application as an ordered stack of layers that a
request is threaded through.
-/

namespace Boilerplate

/-! ## JavaScript values -/

/-- The JavaScript values that occur in the configuration code: `undefined`,
numbers (only integer literals occur) and strings. -/
inductive JSVal where
  | undefined : JSVal
  | num : Int → JSVal
  | str : String → JSVal
  deriving DecidableEq, Repr

namespace JSVal

/-- JavaScript `ToBoolean` on the embedded values: `undefined`, `0` and the empty
string are falsy, everything else is truthy. -/
def truthy : JSVal → Bool
  | undefined => false
  | num n => n != 0
  | str s => s != ""

/-- The JavaScript operator `a || b`: `a` when `a` is truthy, otherwise `b`. -/
def or (a b : JSVal) : JSVal :=
  if a.truthy then a else b

/-- The value is a JavaScript number holding an integer. -/
def isInteger : JSVal → Bool
  | num _ => true
  | _ => false

end JSVal

/-! ## The process environment -/

/-- The process environment `process.env`: variable names to string values. -/
abbrev Env := String → Option String

/-- Property access `process.env.NAME`: the string when the variable is set,
`undefined` otherwise. -/
def Env.read (env : Env) (name : String) : JSVal :=
  match env name with
  | some s => JSVal.str s
  | none => JSVal.undefined

/-- The environment with no variable set. -/
def Env.empty : Env := fun _ => none

/-- The environment `env` with `name` set to `value`. -/
def Env.set (env : Env) (name value : String) : Env :=
  fun k => if k = name then some value else env k

/-! ## `src/config/environtment.js` -/

/-- The object exported by `src/config/environtment.js`. -/
structure Config where
  nodeEnv : JSVal
  port : JSVal
  dbUrl : JSVal
  jwtSecret : JSVal
  deriving DecidableEq, Repr

/-- The object literal of `module.exports` in `environtment.js`, evaluated on the
process environment as it is once `require('dotenv').config()` has returned. -/
def environtment (env : Env) : Config where
  nodeEnv := (env.read "NODE_ENV").or (JSVal.str "development")
  port := (env.read "PORT").or (JSVal.num 3000)
  dbUrl := env.read "DATABASE_URL"
  jwtSecret := env.read "JWT_SECRET"

/-- The parsed contents of the `.env` file of the working directory, variable
names to values; no variable at all when there is no such file. -/
abbrev DotEnv := String → Option String

/-- The call `require('dotenv').config()` of `environtment.js`, line 2: every
variable of the `.env` file that the process environment does not hold yet is
added to it; a variable that is already set, even to the empty string, is
kept. -/
def dotenvConfig (file : DotEnv) (env : Env) : Env :=
  fun name =>
    match env name with
    | some value => some value
    | none => file name

/-- The module `environtment.js` as it runs when it is required: the dotenv call
first, then the object literal on the environment that call leaves. -/
def loadConfig (file : DotEnv) (env : Env) : Config :=
  environtment (dotenvConfig file env)

/-- The constant `PORT` of `app.js`: `process.env.PORT || 3000`.  `app.js`
requires neither dotenv nor the configuration module, so it reads the process
environment as the process received it. -/
def PORT (env : Env) : JSVal :=
  (env.read "PORT").or (JSVal.num 3000)

/-! ## JSON text, as accepted by `JSON.parse` -/

namespace JSON

/-- The containers a JSON value can be nested in. -/
inductive Ctx where
  | arr : Ctx
  | obj : Ctx
  deriving DecidableEq, Repr

/-- The states of the recogniser of the JSON grammar (ECMA-404). -/
inductive St where
  | value : St
  | valueOrClose : St
  | keyOrClose : St
  | key : St
  | colon : St
  | after : St
  | str (isKey : Bool) : St
  | esc (isKey : Bool) : St
  | hex (isKey : Bool) (left : Nat) : St
  | lit (rest : List Char) : St
  | numMinus : St
  | numZero : St
  | numInt : St
  | numDot : St
  | numFrac : St
  | numE : St
  | numESign : St
  | numExp : St
  | fail : St
  deriving DecidableEq, Repr

/-- JSON insignificant whitespace. -/
def isWs (c : Char) : Bool :=
  c = ' ' || c = '\t' || c = '\n' || c = '\r'

/-- A hexadecimal digit of a `\u` escape. -/
def isHex (c : Char) : Bool :=
  c.isDigit || ('a' ≤ c && c ≤ 'f') || ('A' ≤ c && c ≤ 'F')

/-- The state once a string has been closed: a key is followed by a colon, a
string value by a separator. -/
def afterString (isKey : Bool) : St :=
  if isKey then St.colon else St.after

/-- One character read where a value may start. -/
def startValue (stack : List Ctx) (c : Char) : St × List Ctx :=
  if c = '{' then (St.keyOrClose, Ctx.obj :: stack)
  else if c = '[' then (St.valueOrClose, Ctx.arr :: stack)
  else if c = '"' then (St.str false, stack)
  else if c = '-' then (St.numMinus, stack)
  else if c = '0' then (St.numZero, stack)
  else if c.isDigit then (St.numInt, stack)
  else if c = 't' then (St.lit ['r', 'u', 'e'], stack)
  else if c = 'f' then (St.lit ['a', 'l', 's', 'e'], stack)
  else if c = 'n' then (St.lit ['u', 'l', 'l'], stack)
  else (St.fail, stack)

/-- One character read once a value is complete: a separator or a closing
bracket of the innermost container. -/
def afterValue (stack : List Ctx) (c : Char) : St × List Ctx :=
  if isWs c then (St.after, stack)
  else match stack with
    | [] => (St.fail, stack)
    | Ctx.arr :: rest =>
      if c = ',' then (St.value, stack)
      else if c = ']' then (St.after, rest)
      else (St.fail, stack)
    | Ctx.obj :: rest =>
      if c = ',' then (St.key, stack)
      else if c = '}' then (St.after, rest)
      else (St.fail, stack)

/-- One character read inside a string. -/
def inString (isKey : Bool) (c : Char) : St :=
  if c = '"' then afterString isKey
  else if c = '\\' then St.esc isKey
  else if c.toNat < 32 then St.fail
  else St.str isKey

/-- The transition function of the recogniser. -/
def step : St × List Ctx → Char → St × List Ctx
  | (St.fail, stack), _ => (St.fail, stack)
  | (St.value, stack), c => if isWs c then (St.value, stack) else startValue stack c
  | (St.valueOrClose, stack), c =>
    if isWs c then (St.valueOrClose, stack)
    else if c = ']' then (St.after, stack.tail)
    else startValue stack c
  | (St.keyOrClose, stack), c =>
    if isWs c then (St.keyOrClose, stack)
    else if c = '}' then (St.after, stack.tail)
    else if c = '"' then (St.str true, stack)
    else (St.fail, stack)
  | (St.key, stack), c =>
    if isWs c then (St.key, stack)
    else if c = '"' then (St.str true, stack)
    else (St.fail, stack)
  | (St.colon, stack), c =>
    if isWs c then (St.colon, stack)
    else if c = ':' then (St.value, stack)
    else (St.fail, stack)
  | (St.after, stack), c => afterValue stack c
  | (St.str k, stack), c => (inString k c, stack)
  | (St.esc k, stack), c =>
    if c = 'u' then (St.hex k 4, stack)
    else if c ∈ ['"', '\\', '/', 'b', 'f', 'n', 'r', 't'] then (St.str k, stack)
    else (St.fail, stack)
  | (St.hex k n, stack), c =>
    if isHex c then (if n ≤ 1 then St.str k else St.hex k (n - 1), stack)
    else (St.fail, stack)
  | (St.lit [], stack), c => afterValue stack c
  | (St.lit (x :: rest), stack), c =>
    if c = x then (St.lit rest, stack) else (St.fail, stack)
  | (St.numMinus, stack), c =>
    if c = '0' then (St.numZero, stack)
    else if c.isDigit then (St.numInt, stack)
    else (St.fail, stack)
  | (St.numZero, stack), c =>
    if c = '.' then (St.numDot, stack)
    else if c = 'e' || c = 'E' then (St.numE, stack)
    else afterValue stack c
  | (St.numInt, stack), c =>
    if c.isDigit then (St.numInt, stack)
    else if c = '.' then (St.numDot, stack)
    else if c = 'e' || c = 'E' then (St.numE, stack)
    else afterValue stack c
  | (St.numDot, stack), c =>
    if c.isDigit then (St.numFrac, stack) else (St.fail, stack)
  | (St.numFrac, stack), c =>
    if c.isDigit then (St.numFrac, stack)
    else if c = 'e' || c = 'E' then (St.numE, stack)
    else afterValue stack c
  | (St.numE, stack), c =>
    if c = '+' || c = '-' then (St.numESign, stack)
    else if c.isDigit then (St.numExp, stack)
    else (St.fail, stack)
  | (St.numESign, stack), c =>
    if c.isDigit then (St.numExp, stack) else (St.fail, stack)
  | (St.numExp, stack), c =>
    if c.isDigit then (St.numExp, stack) else afterValue stack c

/-- The states in which a complete value has been read. -/
def complete : St → Bool
  | St.after => true
  | St.lit [] => true
  | St.numZero => true
  | St.numInt => true
  | St.numFrac => true
  | St.numExp => true
  | _ => false

/-- Whether `JSON.parse` accepts the text: it holds one JSON value, with
whitespace allowed around it, and nothing else. -/
def parses (text : String) : Bool :=
  let final := text.data.foldl step (St.value, [])
  complete final.1 && final.2.isEmpty

end JSON

/-! ## Entity tags

Express gives every body sent through `res.send` a weak entity tag, built from the
length of the body and the first 27 characters of the Base64 text of its SHA-1
digest. -/

/-- The bytes of the UTF-8 encoding of a text. -/
def utf8 (text : String) : List Nat :=
  text.data.flatMap fun c => (String.utf8EncodeChar c).map UInt8.toNat

namespace SHA1

/-- The `count` low bytes of `n`, most significant first. -/
def bigEndian : Nat → Nat → List Nat
  | 0, _ => []
  | count + 1, n => bigEndian count (n / 256) ++ [n % 256]

/-- The number a list of bytes denotes, most significant first. -/
def ofBytes (bytes : List Nat) : Nat :=
  bytes.foldl (fun acc b => acc * 256 + b) 0

/-- Addition of 32-bit words. -/
def add (a b : Nat) : Nat := (a + b) % 4294967296

/-- Rotation of a 32-bit word to the left by `k` bits. -/
def rotl (k n : Nat) : Nat :=
  ((n <<< k) % 4294967296) ||| (n >>> (32 - k))

/-- The message followed by the bit 1, zero bytes up to 56 modulo 64, and the
length of the message in bits as a 64-bit number. -/
def pad (msg : List Nat) : List Nat :=
  msg ++ [128] ++ List.replicate ((119 - msg.length % 64) % 64) 0 ++
    bigEndian 8 (8 * msg.length)

/-- The 32-bit words of a list of bytes, `count` of them. -/
def words : Nat → List Nat → List Nat
  | 0, _ => []
  | count + 1, bytes => ofBytes (bytes.take 4) :: words count (bytes.drop 4)

/-- The message schedule: the 16 words of the block extended by `count` words. -/
def schedule : Nat → List Nat → List Nat
  | 0, w => w
  | count + 1, w =>
    let t := w.length
    schedule count
      (w ++ [rotl 1 (w.getD (t - 3) 0 ^^^ w.getD (t - 8) 0 ^^^ w.getD (t - 14) 0 ^^^
        w.getD (t - 16) 0)])

/-- The five working variables. -/
structure State where
  a : Nat
  b : Nat
  c : Nat
  d : Nat
  e : Nat
  deriving DecidableEq, Repr

/-- The initial hash value. -/
def init : State :=
  { a := 0x67452301, b := 0xEFCDAB89, c := 0x98BADCFE, d := 0x10325476, e := 0xC3D2E1F0 }

/-- Round `t` of the compression function, on the word `w` of the schedule. -/
def round (s : State) (t w : Nat) : State :=
  let f :=
    if t < 20 then (s.b &&& s.c) ||| ((s.b ^^^ 0xFFFFFFFF) &&& s.d)
    else if t < 40 then s.b ^^^ s.c ^^^ s.d
    else if t < 60 then (s.b &&& s.c) ||| (s.b &&& s.d) ||| (s.c &&& s.d)
    else s.b ^^^ s.c ^^^ s.d
  let k :=
    if t < 20 then 0x5A827999
    else if t < 40 then 0x6ED9EBA1
    else if t < 60 then 0x8F1BBCDC
    else 0xCA62C1D6
  { a := add (add (add (add (rotl 5 s.a) f) s.e) k) w
    b := s.a
    c := rotl 30 s.b
    d := s.c
    e := s.d }

/-- The rounds over the words of the schedule, counted from `t`. -/
def rounds (s : State) : Nat → List Nat → State
  | _, [] => s
  | t, w :: rest => rounds (round s t w) (t + 1) rest

/-- The compression of one block of 64 bytes into the hash value. -/
def compress (h : State) (block : List Nat) : State :=
  let s := rounds h 0 (schedule 64 (words 16 block))
  { a := add h.a s.a, b := add h.b s.b, c := add h.c s.c, d := add h.d s.d,
    e := add h.e s.e }

/-- The blocks of a padded message compressed in turn, `count` of them. -/
def blocks (h : State) : Nat → List Nat → State
  | 0, _ => h
  | count + 1, bytes => blocks (compress h (bytes.take 64)) count (bytes.drop 64)

/-- The SHA-1 digest of a list of bytes: 20 bytes. -/
def digest (msg : List Nat) : List Nat :=
  let padded := pad msg
  let h := blocks init (padded.length / 64) padded
  bigEndian 4 h.a ++ bigEndian 4 h.b ++ bigEndian 4 h.c ++ bigEndian 4 h.d ++
    bigEndian 4 h.e

end SHA1

namespace Base64

/-- The Base64 alphabet. -/
def alphabet : List Char :=
  "ABCDEFGHIJKLMNOPQRSTUVWXYZabcdefghijklmnopqrstuvwxyz0123456789+/".data

/-- The character of a 6-bit value. -/
def digit (n : Nat) : Char := alphabet.getD (n % 64) 'A'

/-- The Base64 text of a list of bytes, with padding; `count` bounds the number
of groups of three bytes. -/
def encode : Nat → List Nat → List Char
  | 0, _ => []
  | _, [] => []
  | _, [a] => [digit (a / 4), digit (a % 4 * 16), '=', '=']
  | _, [a, b] => [digit (a / 4), digit (a % 4 * 16 + b / 16), digit (b % 16 * 4), '=']
  | count + 1, a :: b :: c :: rest =>
    [digit (a / 4), digit (a % 4 * 16 + b / 16), digit (b % 16 * 4 + c / 64), digit c] ++
      encode count rest

end Base64

/-- The hexadecimal digits of a number, lower case, with no leading zero except
for zero itself; what `toString(16)` gives. -/
def toHex (n : Nat) : String :=
  String.mk ((Nat.toDigits 16 n).map Char.toLower)

/-- The weak entity tag Express computes for a body. -/
def etag (body : String) : String :=
  let bytes := utf8 body
  "W/\"" ++ toHex bytes.length ++ "-" ++
    String.mk ((Base64.encode 7 (SHA1.digest bytes)).take 27) ++ "\""

namespace JSON

/-- The characters `JSON.stringify` writes for one character of a string. -/
def escape (c : Char) : List Char :=
  if c = '"' then ['\\', '"']
  else if c = '\\' then ['\\', '\\']
  else if c = '\n' then ['\\', 'n']
  else if c = '\r' then ['\\', 'r']
  else if c = '\t' then ['\\', 't']
  else if c.toNat = 8 then ['\\', 'b']
  else if c.toNat = 12 then ['\\', 'f']
  else if c.toNat < 32 then
    ['\\', 'u', '0', '0'] ++ (if c.toNat < 16 then ['0'] else ['1']) ++
      (Nat.toDigits 16 (c.toNat % 16)).map Char.toLower
  else [c]

/-- A string as `JSON.stringify` writes it. -/
def quote (text : String) : List Char :=
  ['"'] ++ text.data.flatMap escape ++ ['"']

/-- The fields of an object as `JSON.stringify` writes them, separated by
commas. -/
def fields : List (String × String) → List Char
  | [] => []
  | [(k, v)] => quote k ++ [':'] ++ quote v
  | (k, v) :: rest => quote k ++ [':'] ++ quote v ++ [','] ++ fields rest

/-- The text `JSON.stringify` gives for an object with string fields. -/
def stringify (obj : List (String × String)) : String :=
  String.mk (['{'] ++ fields obj ++ ['}'])

end JSON

/-! ## HTTP requests and responses -/

/-- HTTP request methods. -/
inductive Method where
  | GET | HEAD | POST | PUT | PATCH | DELETE | OPTIONS
  deriving DecidableEq, Repr

/-- An incoming request: method, path of the URL, query string, media type of the
`Content-Type` header (lower case, without parameters), the payload sent, the
empty string when there is none, and the other headers, one entry per header
with its name in lower case, as Node presents them.  The payload is taken to be
UTF-8 text sent without content encoding. -/
structure Request where
  method : Method
  path : String
  query : String
  contentType : Option String
  payload : String
  headers : List (String × String)
  deriving DecidableEq, Repr

/-- A request without a query string and without other headers. -/
def request (method : Method) (path : String) (contentType : Option String)
    (payload : String) : Request :=
  { method := method, path := path, query := "", contentType := contentType,
    payload := payload, headers := [] }

/-- A conditional request: no payload, and the header `If-None-Match`. -/
def conditional (method : Method) (path noneMatch : String) : Request :=
  { method := method, path := path, query := "", contentType := none, payload := "",
    headers := [("if-none-match", noneMatch)] }

/-- The value of a request header. -/
def Request.header (req : Request) (name : String) : Option String :=
  (req.headers.find? fun h => h.1 = name).map Prod.snd

/-- JavaScript truthiness of a header value: it is there and not empty. -/
def present : Option String → Bool
  | some value => value != ""
  | none => false

/-- A list of characters without the leading and trailing characters that
satisfy `p`. -/
def trim (p : Char → Bool) (cs : List Char) : List Char :=
  ((cs.dropWhile p).reverse.dropWhile p).reverse

/-- The entries of a comma-separated header value, without the spaces around
them. -/
def tokenList (value : String) : List (List Char) :=
  (value.data.splitOn ',').map (trim fun c => c = ' ')

/-- Whether a `Cache-Control` request header holds the directive `no-cache`. -/
def noCache : Option String → Bool
  | some value =>
    (value.data.splitOn ',').any fun piece => trim Char.isWhitespace piece = "no-cache".data
  | none => false

/-- Whether an entry of `If-None-Match` names the entity tag, compared weakly. -/
def tagMatches (tag : String) (entry : List Char) : Bool :=
  entry = tag.data || entry = "W/".data ++ tag.data || "W/".data ++ entry = tag.data

/-- The module `fresh` on the request headers and the entity tag of the response:
whether the copy the client holds is still good.  No response of this
application carries `Last-Modified`, so a request with `If-Modified-Since` is
never fresh. -/
def freshHeaders (req : Request) (tag : String) : Bool :=
  let modifiedSince := req.header "if-modified-since"
  let noneMatch := req.header "if-none-match"
  if !present modifiedSince && !present noneMatch then false
  else if noCache (req.header "cache-control") then false
  else if present noneMatch && noneMatch != some "*" &&
      !(tokenList (noneMatch.getD "")).any (tagMatches tag) then false
  else if present modifiedSince then false
  else true

/-- The property `req.fresh` of Express: only a `GET` or `HEAD` request whose
response has a status 2xx or 304 can be fresh. -/
def Request.fresh (req : Request) (status : Nat) (tag : String) : Bool :=
  (req.method = Method.GET || req.method = Method.HEAD) &&
    ((200 ≤ status && status < 300) || status = 304) && freshHeaders req tag

/-- What `req.body` holds while the request is served: nothing was parsed yet, or
the payload was parsed by one of the two body parsers (the parsed value is kept
as its source text; no handler of this application reads it). -/
inductive ParsedBody where
  | none : ParsedBody
  | json (text : String) : ParsedBody
  | urlencoded (text : String) : ParsedBody
  deriving DecidableEq, Repr

/-- The argument of `res.json` in this application: an object with string
fields. -/
abbrev JsonObject := List (String × String)

/-- The response under construction: status code, headers set so far, the object
passed to `res.json` if it was called, the JSON text written to the connection
as the body if one was, and whether the response was ended. -/
structure Response where
  statusCode : Nat
  headers : List (String × String)
  json : Option JsonObject
  body : Option String
  ended : Bool
  deriving DecidableEq, Repr

/-- The response object Node creates for a request: status 200, nothing sent. -/
def Response.fresh : Response :=
  { statusCode := 200, headers := [], json := none, body := none, ended := false }

/-- The method `res.json(obj)` on the response of the request `req`: the text of
`obj` gets its entity tag; a fresh request is answered 304; a response 204 or
304 has no `Content-Type` and no body, and no body is written for `HEAD`;
otherwise the text is sent with the status code the response has.  The response
is ended.  `Content-Length` is left out. -/
def Response.sendJson (res : Response) (req : Request) (obj : JsonObject) : Response :=
  let text := JSON.stringify obj
  let tag := etag text
  let status := if req.fresh res.statusCode tag then 304 else res.statusCode
  let bare : Bool := status = 204 || status = 304
  { statusCode := status
    headers := res.headers ++
      (if bare then [] else [("Content-Type", "application/json; charset=utf-8")]) ++
      [("ETag", tag)]
    json := some obj
    body := if bare || req.method = Method.HEAD then none else some text
    ended := true }

/-- An error passed to `next(err)`, with the `status` and `message` properties
that `http-errors` gives it. -/
structure HttpError where
  status : Nat
  message : String
  deriving DecidableEq, Repr

/-! ## `src/routes/exampleRoutes.js` -/

/-- The route handlers declared in `exampleRoutes.js`. -/
inductive Handler where
  | getRoot : Handler
  | postRoot : Handler
  deriving DecidableEq, Repr

/-- The bodies of the two handlers: each reads nothing of `req`, passed as the
request received and the current `req.body`, and calls `res.json` with a
constant object. -/
def Handler.run : Handler → Request → ParsedBody → Response → Response
  | Handler.getRoot, req, _, res => res.sendJson req [("message", "Example route working!")]
  | Handler.postRoot, req, _, res => res.sendJson req [("message", "POST to example route")]

/-- A route of a router: the method and path it was declared with, and its
handler. -/
structure Route where
  method : Method
  path : String
  handler : Handler
  deriving DecidableEq, Repr

/-- The router built by `exampleRoutes.js`: `router.get('/')`, then
`router.post('/')`. -/
def exampleRoutes : List Route :=
  [ { method := Method.GET, path := "/", handler := Handler.getRoot },
    { method := Method.POST, path := "/", handler := Handler.postRoot } ]

/-- Express serves a `HEAD` request with the `GET` route when the route declares
no `HEAD` handler; no route of this application does. -/
def Route.handlesMethod (r : Route) (m : Method) : Bool :=
  r.method = m || (m = Method.HEAD && r.method = Method.GET)

/-- Route paths are matched without regard to case, and a trailing slash is
optional. -/
def Route.matchesPath (r : Route) (url : String) : Bool :=
  let want := r.path.data.map Char.toLower
  let got := url.data.map Char.toLower
  got = want || (if want.getLast? = some '/' then got ++ ['/'] = want else got = want ++ ['/'])

/-- The first route of the router that matches the path and the method of the
request, where `url` is the path below the mount point. -/
def Router.find (routes : List Route) (m : Method) (url : String) : Option Handler :=
  (routes.find? fun r => r.matchesPath url && r.handlesMethod m).map Route.handler

/-- Modelled from the spec: `src/routes/index.js`, the module `app.js` requires
as `./routes`.  It is the router of section 4.2, whose two operations are the
routes of `exampleRoutes.js`, on path `/` below the mount point. -/
def routes : List Route := exampleRoutes

/-! ## The middlewares registered by `app.js` -/

/-- A layer of the application stack, one per `app.use` call of `app.js`. -/
inductive Layer where
  | helmet : Layer
  | cors : Layer
  | json : Layer
  | urlencoded (extended : Bool) : Layer
  | mount (path : String) (router : List Route) : Layer
  | errorHandler : Layer
  deriving DecidableEq, Repr

/-- What happened while a request was served. -/
inductive Event where
  | router : Event
  | route (h : Handler) : Event
  | errorHandler (e : HttpError) : Event
  | notFound : Event
  deriving DecidableEq, Repr

/-- The state threaded through the stack: the request, its `body` property and
the response, the error passed to `next(err)` if there is one, and the events so
far. -/
structure Exchange where
  req : Request
  body : ParsedBody
  res : Response
  error : Option HttpError
  trace : List Event
  deriving DecidableEq, Repr

/-- The default `limit` of both body parsers: 100kb. -/
def bodyLimit : Nat := 102400

/-- The default `parameterLimit` of the URL-encoded parser. -/
def parameterLimit : Nat := 1000

/-- The strict mode of `express.json()`: the first character of the payload that
is not whitespace opens an object or an array. -/
def strictJson (text : String) : Bool :=
  match text.data.dropWhile JSON.isWs with
  | c :: _ => c = '{' || c = '['
  | [] => false

/-- The error `express.json()` passes to `next`, if any, for a payload of media
type `application/json`. -/
def jsonError (text : String) : Option HttpError :=
  if bodyLimit < text.utf8ByteSize then
    some { status := 413, message := "request entity too large" }
  else if strictJson text && JSON.parses text then none
  else some { status := 400, message := "Unexpected token in JSON" }

/-- The error `express.urlencoded()` passes to `next`, if any, for a payload of
media type `application/x-www-form-urlencoded`. -/
def urlencodedError (text : String) : Option HttpError :=
  if bodyLimit < text.utf8ByteSize then
    some { status := 413, message := "request entity too large" }
  else if parameterLimit ≤ text.data.count '&' then
    some { status := 413, message := "too many parameters" }
  else none

/-- A body parser for one media type: it leaves alone a request that was already
parsed, has no payload or is of another media type; otherwise it stores the
parsed payload in `req.body` or passes its error to `next`. -/
def bodyParser (mediaType : String) (check : String → Option HttpError)
    (store : String → ParsedBody) (x : Exchange) : Exchange :=
  if x.body ≠ ParsedBody.none ∨ x.req.payload = "" ∨
      x.req.contentType ≠ some mediaType then x
  else match check x.req.payload with
    | some e => { x with error := some e }
    | none => { x with body := store x.req.payload }

/-- The path below a mount point, when the request path is under it: the mount
path is matched without regard to case and up to a path separator, and one
trailing slash is taken with it. -/
def mountStrip : List Char → List Char → Option (List Char)
  | [], [] => some ['/']
  | [], '/' :: rest =>
    match rest with
    | [] => some ['/']
    | '/' :: _ => some rest
    | _ => some ('/' :: rest)
  | [], _ :: _ => none
  | _ :: _, [] => none
  | p :: ps, c :: cs => if p.toLower = c.toLower then mountStrip ps cs else none

/-- Whether a request path is under the mount path. -/
def underMount (mountPath path : String) : Bool :=
  (mountStrip mountPath.data path.data).isSome

/-- The requests whose body the two body parsers let through: there is no
payload; or its media type is neither of the two the parsers handle; or it is
JSON text within the size limit that opens an object or an array and that
`JSON.parse` accepts; or it is URL-encoded text within the size limit and the
parameter limit. -/
def Request.accepted (req : Request) : Prop :=
  req.payload = "" ∨
  (req.contentType ≠ some "application/json" ∧
    req.contentType ≠ some "application/x-www-form-urlencoded") ∨
  (req.contentType = some "application/json" ∧ req.payload.utf8ByteSize ≤ bodyLimit ∧
    strictJson req.payload = true ∧ JSON.parses req.payload = true) ∨
  (req.contentType = some "application/x-www-form-urlencoded" ∧
    req.payload.utf8ByteSize ≤ bodyLimit ∧ req.payload.data.count '&' < parameterLimit)

/-- Modelled from the spec: `src/middlewares/errorHandler.js`.  It answers with a
JSON body `{"error": <message>}` and a 4xx/5xx status: the status of the error
when that is one, 500 otherwise. -/
def errorHandler (e : HttpError) (req : Request) (res : Response) : Response :=
  { res with
    statusCode := if 400 ≤ e.status ∧ e.status < 600 then e.status else 500
  }.sendJson req [("error", e.message)]

/-- One layer applied to the exchange.  A layer is not entered once the response
is ended; while an error is pending only the error handler is entered, and the
error handler is entered only then. -/
def Layer.apply (l : Layer) (x : Exchange) : Exchange :=
  if x.res.ended then x
  else match x.error, l with
    | some e, Layer.errorHandler =>
      { x with res := Boilerplate.errorHandler e x.req x.res, trace := x.trace ++ [Event.errorHandler e] }
    | some _, _ => x
    | none, Layer.errorHandler => x
    | none, Layer.helmet =>
      { x with res := { x.res with
          headers := x.res.headers ++ [("X-Content-Type-Options", "nosniff")] } }
    | none, Layer.cors =>
      let res := { x.res with
        headers := x.res.headers ++ [("Access-Control-Allow-Origin", "*")] }
      if x.req.method = Method.OPTIONS then
        { x with res := { res with statusCode := 204, ended := true } }
      else { x with res := res }
    | none, Layer.json => bodyParser "application/json" jsonError ParsedBody.json x
    | none, Layer.urlencoded _ =>
      bodyParser "application/x-www-form-urlencoded" urlencodedError ParsedBody.urlencoded x
    | none, Layer.mount path router =>
      match mountStrip path.data x.req.path.data with
      | none => x
      | some url =>
        match Router.find router x.req.method (String.mk url) with
        | none => { x with trace := x.trace ++ [Event.router] }
        | some h =>
          { x with res := h.run x.req x.body x.res
                   trace := x.trace ++ [Event.router, Event.route h] }

/-- The end of the stack: a request nobody answered gets the default response of
Express, 404 without an error and the status of the error otherwise; its body is
an HTML page, not JSON text. -/
def finalHandler (x : Exchange) : Exchange :=
  if x.res.ended then x
  else match x.error with
    | none =>
      { x with res := { x.res with statusCode := 404, ended := true }
               trace := x.trace ++ [Event.notFound] }
    | some e =>
      { x with res := { x.res with
          statusCode := if 400 ≤ e.status ∧ e.status < 600 then e.status else 500
          ended := true } }

/-- A request served by a stack of layers, in registration order. -/
def serve (stack : List Layer) (req : Request) : Exchange :=
  finalHandler
    (stack.foldl (fun x l => l.apply x)
      { req := req, body := ParsedBody.none, res := Response.fresh, error := none, trace := [] })

/-! ## `src/app.js` -/

/-- A call on the application object. -/
inductive Call where
  | use (l : Layer) : Call
  | listen (port : JSVal) : Call
  deriving DecidableEq, Repr

/-- The application object: the layers registered so far, the port it listens on
once `listen` was called, and the calls made on it, in order. -/
structure App where
  stack : List Layer
  listening : Option JSVal
  calls : List Call
  deriving DecidableEq, Repr

/-- The application `express()` returns. -/
def express : App := { stack := [], listening := none, calls := [] }

/-- The method `app.use(layer)`: registers the layer after those already there. -/
def App.use (app : App) (l : Layer) : App :=
  { app with stack := app.stack ++ [l], calls := app.calls ++ [Call.use l] }

/-- The method `app.listen(port)`. -/
def App.listen (app : App) (port : JSVal) : App :=
  { app with listening := some port, calls := app.calls ++ [Call.listen port] }

/-- The statements of `app.js`, in source order. -/
def app (env : Env) : App :=
  let a := express
  let a := a.use Layer.helmet
  let a := a.use Layer.cors
  let a := a.use Layer.json
  let a := a.use (Layer.urlencoded true)
  let a := a.use (Layer.mount "/api" routes)
  let a := a.use Layer.errorHandler
  a.listen (PORT env)

/-- The response of the running application to a request. -/
def handle (req : Request) : Exchange :=
  serve (app Env.empty).stack req

/-- The response object as it is after helmet and cors let a request through. -/
def Response.passed : Response :=
  { statusCode := 200
    headers := [("X-Content-Type-Options", "nosniff"), ("Access-Control-Allow-Origin", "*")]
    json := none
    body := none
    ended := false }

/-- The response of cors to an `OPTIONS` request. -/
def Response.preflight : Response :=
  { Response.passed with statusCode := 204, ended := true }

/-- The exchange as it reaches the router: after the four pre-route middlewares
of `app.js`. -/
def preRoute (req : Request) : Exchange :=
  [Layer.helmet, Layer.cors, Layer.json, Layer.urlencoded true].foldl (fun x l => l.apply x)
    { req := req, body := ParsedBody.none, res := Response.fresh, error := none, trace := [] }

end Boilerplate

namespace Boilerplate

/-! ## Reading the environment -/

theorem read_none {env : Env} {name : String} (h : env name = none) :
    env.read name = JSVal.undefined := by
  simp [Env.read, h]

theorem read_some {env : Env} {name s : String} (h : env name = some s) :
    env.read name = JSVal.str s := by
  simp [Env.read, h]

theorem or_undefined (d : JSVal) : JSVal.undefined.or d = d := by
  simp [JSVal.or, JSVal.truthy]

theorem or_empty (d : JSVal) : (JSVal.str "").or d = d := by
  simp [JSVal.or, JSVal.truthy]

theorem or_nonempty {s : String} (h : s ≠ "") (d : JSVal) :
    (JSVal.str s).or d = JSVal.str s := by
  simp [JSVal.or, JSVal.truthy, h]

/-- The value of `process.env.NAME || d`, by cases on the variable. -/
theorem read_or (env : Env) (name : String) (d : JSVal) :
    (env.read name).or d =
      match env name with
      | none => d
      | some s => if s = "" then d else JSVal.str s := by
  cases h : env name with
  | none => simp [read_none h, or_undefined]
  | some s =>
    by_cases hs : s = ""
    · subst hs
      simp [read_some h, or_empty]
    · simp [read_some h, or_nonempty hs, hs]

/-! ## Configuration -/

/-- C3: the configuration object is built for every process environment (the
embedding is a total function), and each field whose variable is absent takes
its documented value: `nodeEnv` is "development", `port` is 3000, `dbUrl` and
`jwtSecret` are `undefined`. -/
theorem config_defaults_when_absent (env : Env) :
    (env "NODE_ENV" = none → (environtment env).nodeEnv = JSVal.str "development") ∧
    (env "PORT" = none → (environtment env).port = JSVal.num 3000) ∧
    (env "DATABASE_URL" = none → (environtment env).dbUrl = JSVal.undefined) ∧
    (env "JWT_SECRET" = none → (environtment env).jwtSecret = JSVal.undefined) := by
  refine ⟨fun h => ?_, fun h => ?_, fun h => ?_, fun h => ?_⟩
  · simp [environtment, read_or, h]
  · simp [environtment, read_or, h]
  · simp [environtment, read_none h]
  · simp [environtment, read_none h]

theorem config_defaults_when_absent_witness :
    environtment Env.empty =
      { nodeEnv := JSVal.str "development", port := JSVal.num 3000,
        dbUrl := JSVal.undefined, jwtSecret := JSVal.undefined } := by
  have h := config_defaults_when_absent Env.empty
  have h1 := h.1 rfl
  have h2 := h.2.1 rfl
  have h3 := h.2.2.1 rfl
  have h4 := h.2.2.2 rfl
  cases hc : environtment Env.empty
  simp_all

/-- C4, counterexample: with `PORT=8080` the `port` field is the string "8080",
not an integer. -/
theorem config_port_not_always_integer :
    (environtment (Env.empty.set "PORT" "8080")).port = JSVal.str "8080" ∧
    (environtment (Env.empty.set "PORT" "8080")).port.isInteger = false := by
  decide

/-- C4, amended: the `port` field is an integer exactly when `PORT` is absent or
empty, and then it is 3000; for any other value of `PORT` it is that string. -/
theorem config_port_integer_iff (env : Env) :
    ((environtment env).port.isInteger = true ↔
      (env "PORT" = none ∨ env "PORT" = some "")) ∧
    ((environtment env).port.isInteger = true → (environtment env).port = JSVal.num 3000) ∧
    (∀ s, env "PORT" = some s → s ≠ "" → (environtment env).port = JSVal.str s) := by
  simp only [environtment, read_or]
  cases h : env "PORT" with
  | none => simp [JSVal.isInteger]
  | some s =>
    by_cases hs : s = ""
    · simp [hs, JSVal.isInteger]
    · simp [hs, JSVal.isInteger]

theorem config_port_integer_iff_witness :
    (environtment (Env.empty.set "PORT" "abc")).port = JSVal.str "abc" :=
  (config_port_integer_iff (Env.empty.set "PORT" "abc")).2.2 "abc" rfl (by decide)

/-! ## The listening port -/

/-- The port `app.js` passes to `listen` is its constant `PORT`. -/
theorem app_listening (env : Env) : (app env).listening = some (PORT env) := rfl

/-- C5, counterexample: with `PORT` set to the empty string the port passed to
`listen` is 3000, not the value of `PORT`. -/
theorem listen_port_empty_PORT :
    (Env.empty.set "PORT" "") "PORT" = some "" ∧
    (app (Env.empty.set "PORT" "")).listening = some (JSVal.num 3000) ∧
    (app (Env.empty.set "PORT" "")).listening ≠ some (JSVal.str "") := by
  decide

/-- C5, amended: the port passed to `listen` is 3000 when `PORT` is absent or set
to the empty string, and is the value of `PORT`, as a string, when it is set to a
non-empty string. -/
theorem listen_port_by_cases (env : Env) :
    (env "PORT" = none → (app env).listening = some (JSVal.num 3000)) ∧
    (env "PORT" = some "" → (app env).listening = some (JSVal.num 3000)) ∧
    (∀ s, env "PORT" = some s → s ≠ "" → (app env).listening = some (JSVal.str s)) := by
  simp only [app_listening, PORT, read_or]
  refine ⟨fun h => ?_, fun h => ?_, fun s h hs => ?_⟩
  · simp [h]
  · simp [h]
  · simp [h, hs]

theorem listen_port_by_cases_witness :
    (app (Env.empty.set "PORT" "8080")).listening = some (JSVal.str "8080") :=
  (listen_port_by_cases (Env.empty.set "PORT" "8080")).2.2 "8080" rfl (by decide)

/-- C9, counterexample: with no `PORT` in the process environment and
`PORT=4000` in the `.env` file, `app.js` passes 3000 to `listen` while the
`port` field of the configuration module is the string "4000". -/
theorem listen_port_differs_from_config_port :
    (app Env.empty).listening = some (JSVal.num 3000) ∧
    (loadConfig (Env.empty.set "PORT" "4000") Env.empty).port = JSVal.str "4000" ∧
    (app Env.empty).listening ≠
      some (loadConfig (Env.empty.set "PORT" "4000") Env.empty).port := by
  decide

/-- C9, amended: for every process environment and every `.env` file, the port
`app.js` passes to `listen` equals the `port` field the configuration module
computes exactly when `PORT` is set in the process environment itself, or the
`.env` file, which only the configuration module loads, defines no `PORT` or an
empty one. -/
theorem listen_port_eq_config_port_iff (file : DotEnv) (env : Env) :
    (app env).listening = some (loadConfig file env).port ↔
      (env "PORT" ≠ none ∨ file "PORT" = none ∨ file "PORT" = some "") := by
  simp only [app_listening, PORT, loadConfig, environtment, read_or, dotenvConfig,
    Option.some.injEq]
  cases he : env "PORT" with
  | some s => simp
  | none =>
    cases hf : file "PORT" with
    | none => simp
    | some t =>
      by_cases ht : t = ""
      · simp [ht]
      · simp [ht]

theorem listen_port_eq_config_port_iff_witness :
    (app (Env.empty.set "PORT" "8080")).listening =
      some (loadConfig (Env.empty.set "PORT" "4000") (Env.empty.set "PORT" "8080")).port :=
  (listen_port_eq_config_port_iff (Env.empty.set "PORT" "4000")
    (Env.empty.set "PORT" "8080")).mpr (Or.inl (by decide))

/-- C10: for `NODE_ENV` and `PORT`, an empty value is treated like an absent one
(`nodeEnv` is "development", `port` and the port of `app.js` are 3000), and a
non-empty value is stored unchanged as a string. -/
theorem empty_like_absent_nonempty_verbatim (env : Env) :
    (env "NODE_ENV" = some "" → (environtment env).nodeEnv = JSVal.str "development") ∧
    (env "PORT" = some "" →
      (environtment env).port = JSVal.num 3000 ∧ PORT env = JSVal.num 3000) ∧
    (∀ s, env "NODE_ENV" = some s → s ≠ "" → (environtment env).nodeEnv = JSVal.str s) ∧
    (∀ s, env "PORT" = some s → s ≠ "" →
      (environtment env).port = JSVal.str s ∧ PORT env = JSVal.str s) := by
  simp only [environtment, PORT, read_or]
  refine ⟨fun h => ?_, fun h => ?_, fun s h hs => ?_, fun s h hs => ?_⟩
  · simp [h]
  · simp [h]
  · simp [h, hs]
  · simp [h, hs]

theorem empty_like_absent_nonempty_verbatim_witness :
    ((environtment (Env.empty.set "PORT" "0")).port = JSVal.str "0" ∧
      PORT (Env.empty.set "PORT" "0") = JSVal.str "0") ∧
    (environtment (Env.empty.set "NODE_ENV" "")).nodeEnv = JSVal.str "development" :=
  ⟨(empty_like_absent_nonempty_verbatim (Env.empty.set "PORT" "0")).2.2.2 "0" rfl (by decide),
   (empty_like_absent_nonempty_verbatim (Env.empty.set "NODE_ENV" "")).1 rfl⟩

/-! ## Assembly order -/

/-- C6: the calls `app.js` makes on the application are, in order, the six
registrations helmet, cors, JSON parser, URL-encoded parser (extended), router
mounted at `/api`, error handler, and then `listen`; the stack holds the six
layers in that order, and the error handler is the last of them. -/
theorem assembly_order (env : Env) :
    (app env).calls =
      [ Call.use Layer.helmet, Call.use Layer.cors, Call.use Layer.json,
        Call.use (Layer.urlencoded true), Call.use (Layer.mount "/api" routes),
        Call.use Layer.errorHandler, Call.listen (PORT env) ] ∧
    (app env).stack =
      [ Layer.helmet, Layer.cors, Layer.json, Layer.urlencoded true,
        Layer.mount "/api" routes, Layer.errorHandler ] ∧
    (app env).stack.getLast? = some Layer.errorHandler ∧
    (∀ l, (app env).calls.indexOf (Call.use l) < (app env).calls.indexOf (Call.listen (PORT env))
      ∨ Call.use l ∉ (app env).calls) := by
  refine ⟨rfl, rfl, rfl, fun l => ?_⟩
  by_cases h : Call.use l ∈ (app env).calls
  · left
    have hc : (app env).calls =
      [ Call.use Layer.helmet, Call.use Layer.cors, Call.use Layer.json,
        Call.use (Layer.urlencoded true), Call.use (Layer.mount "/api" routes),
        Call.use Layer.errorHandler, Call.listen (PORT env) ] := rfl
    rw [hc] at h ⊢
    simp only [List.mem_cons, Call.use.injEq, List.mem_singleton, List.not_mem_nil,
      or_false, reduceCtorEq] at h
    rcases h with h | h | h | h | h | h <;> subst h <;> simp [List.indexOf_cons]
  · right
    exact h

end Boilerplate

namespace Boilerplate

/-! ## The pre-route middlewares -/

theorem handle_eq (req : Request) :
    handle req =
      finalHandler (Layer.errorHandler.apply ((Layer.mount "/api" routes).apply (preRoute req))) :=
  rfl

/-- A body parser leaves the exchange alone, records its error, or stores the
parsed payload. -/
theorem bodyParser_cases (mediaType : String) (check : String → Option HttpError)
    (store : String → ParsedBody) (x : Exchange) :
    bodyParser mediaType check store x = x ∨
    (∃ e, check x.req.payload = some e ∧ x.req.payload ≠ "" ∧
      x.req.contentType = some mediaType ∧ x.body = ParsedBody.none ∧
      bodyParser mediaType check store x = { x with error := some e }) ∨
    (check x.req.payload = none ∧
      bodyParser mediaType check store x = { x with body := store x.req.payload }) := by
  unfold bodyParser
  split
  · exact Or.inl rfl
  · rename_i hc
    simp only [not_or, not_not] at hc
    cases h : check x.req.payload with
    | some e => exact Or.inr (Or.inl ⟨e, rfl, hc.2.1, hc.2.2, hc.1, rfl⟩)
    | none => exact Or.inr (Or.inr ⟨rfl, rfl⟩)

/-- While an error is pending, a layer other than the error handler is not
entered. -/
theorem apply_pending (l : Layer) (hl : l ≠ Layer.errorHandler) (x : Exchange) (e : HttpError)
    (hx : x.error = some e) : l.apply x = x := by
  unfold Layer.apply
  split
  · rfl
  · cases l <;> simp_all

/-- The exchange after helmet and cors, for a request that is not `OPTIONS`. -/
theorem after_cors (req : Request) (h : req.method ≠ Method.OPTIONS) :
    [Layer.helmet, Layer.cors].foldl (fun x l => l.apply x)
      { req := req, body := ParsedBody.none, res := Response.fresh, error := none, trace := [] } =
    { req := req, body := ParsedBody.none, res := Response.passed, error := none, trace := [] } := by
  simp [Layer.apply, Response.fresh, Response.passed, h]

/-- An `OPTIONS` request is answered by cors and reaches no later layer. -/
theorem preRoute_options (req : Request) (h : req.method = Method.OPTIONS) :
    preRoute req =
      { req := req, body := ParsedBody.none, res := Response.preflight, error := none,
        trace := [] } := by
  simp [preRoute, Layer.apply, Response.fresh, Response.passed, Response.preflight, h]

theorem preRoute_eq (req : Request) (h : req.method ≠ Method.OPTIONS) :
    preRoute req =
      (Layer.urlencoded true).apply (Layer.json.apply
        { req := req, body := ParsedBody.none, res := Response.passed, error := none,
          trace := [] }) := by
  have hc := after_cors req h
  simp only [List.foldl_cons, List.foldl_nil] at hc
  simp only [preRoute, List.foldl_cons, List.foldl_nil, hc]

theorem json_apply (req : Request) (b : ParsedBody) :
    Layer.json.apply
        { req := req, body := b, res := Response.passed, error := none, trace := [] } =
      bodyParser "application/json" jsonError ParsedBody.json
        { req := req, body := b, res := Response.passed, error := none, trace := [] } := by
  simp [Layer.apply, Response.passed]

theorem urlencoded_apply (req : Request) (b : ParsedBody) :
    (Layer.urlencoded true).apply
        { req := req, body := b, res := Response.passed, error := none, trace := [] } =
      bodyParser "application/x-www-form-urlencoded" urlencodedError ParsedBody.urlencoded
        { req := req, body := b, res := Response.passed, error := none, trace := [] } := by
  simp [Layer.apply, Response.passed]

/-- The exchange that reaches the router, for a request that is not `OPTIONS`:
either a body parser signalled an error, or none did and `req.body` is set. -/
theorem preRoute_cases (req : Request) (h : req.method ≠ Method.OPTIONS) :
    (∃ e, preRoute req =
      { req := req, body := ParsedBody.none, res := Response.passed, error := some e,
        trace := [] }) ∨
    (∃ b, preRoute req =
      { req := req, body := b, res := Response.passed, error := none, trace := [] }) := by
  rw [preRoute_eq req h, json_apply]
  rcases bodyParser_cases "application/json" jsonError ParsedBody.json
      { req := req, body := ParsedBody.none, res := Response.passed, error := none,
        trace := [] } with hj | ⟨e, -, -, -, -, hj⟩ | ⟨-, hj⟩
  · rw [hj, urlencoded_apply]
    rcases bodyParser_cases "application/x-www-form-urlencoded" urlencodedError
        ParsedBody.urlencoded
        { req := req, body := ParsedBody.none, res := Response.passed, error := none,
          trace := [] } with hu | ⟨e, -, -, -, -, hu⟩ | ⟨-, hu⟩
    · exact Or.inr ⟨_, hu⟩
    · exact Or.inl ⟨e, hu⟩
    · exact Or.inr ⟨_, hu⟩
  · rw [hj, apply_pending _ (by simp) _ e rfl]
    exact Or.inl ⟨e, rfl⟩
  · rw [hj, urlencoded_apply]
    rcases bodyParser_cases "application/x-www-form-urlencoded" urlencodedError
        ParsedBody.urlencoded
        { req := req, body := ParsedBody.json req.payload, res := Response.passed,
          error := none, trace := [] } with hu | ⟨e, -, -, -, hb, -⟩ | ⟨-, hu⟩
    · exact Or.inr ⟨_, hu⟩
    · simp at hb
    · exact Or.inr ⟨_, hu⟩

/-- A request with a JSON payload that `express.json()` rejects reaches the
router with that error pending. -/
theorem preRoute_json_error (req : Request) (h : req.method ≠ Method.OPTIONS)
    (hct : req.contentType = some "application/json") (hp : req.payload ≠ "")
    (e : HttpError) (he : jsonError req.payload = some e) :
    preRoute req =
      { req := req, body := ParsedBody.none, res := Response.passed, error := some e,
        trace := [] } := by
  rw [preRoute_eq req h, json_apply]
  have hj : bodyParser "application/json" jsonError ParsedBody.json
      { req := req, body := ParsedBody.none, res := Response.passed, error := none,
        trace := [] } =
      { req := req, body := ParsedBody.none, res := Response.passed, error := some e,
        trace := [] } := by
    simp [bodyParser, hct, hp, he]
  rw [hj, apply_pending _ (by simp) _ e rfl]

/-! ## What `res.json` leaves -/

@[simp] theorem sendJson_ended (res : Response) (req : Request) (obj : JsonObject) :
    (res.sendJson req obj).ended = true := rfl

@[simp] theorem sendJson_json (res : Response) (req : Request) (obj : JsonObject) :
    (res.sendJson req obj).json = some obj := rfl

theorem sendJson_statusCode (res : Response) (req : Request) (obj : JsonObject) :
    (res.sendJson req obj).statusCode =
      if req.fresh res.statusCode (etag (JSON.stringify obj)) then 304
      else res.statusCode := rfl

/-- A response with an error status is never answered 304. -/
theorem not_fresh_of_error (req : Request) (status : Nat) (tag : String)
    (h : 400 ≤ status) : req.fresh status tag = false := by
  have h1 : ¬ status < 300 := by omega
  have h2 : status ≠ 304 := by omega
  simp [Request.fresh, h1, h2]

/-- Only `GET` and `HEAD` requests are ever answered 304. -/
theorem not_fresh_of_method (req : Request) (status : Nat) (tag : String)
    (hg : req.method ≠ Method.GET) (hh : req.method ≠ Method.HEAD) :
    req.fresh status tag = false := by
  simp [Request.fresh, hg, hh]

/-- The error handler answers with the status of the error when that is 4xx/5xx
and with 500 otherwise. -/
theorem errorHandler_statusCode (e : HttpError) (req : Request) (res : Response) :
    (errorHandler e req res).statusCode =
      if 400 ≤ e.status ∧ e.status < 600 then e.status else 500 := by
  have hs : 400 ≤ (if 400 ≤ e.status ∧ e.status < 600 then e.status else 500) := by
    split <;> omega
  simp only [errorHandler, sendJson_statusCode]
  rw [not_fresh_of_error _ _ _ hs]
  simp

@[simp] theorem errorHandler_ended (e : HttpError) (req : Request) (res : Response) :
    (errorHandler e req res).ended = true := rfl

@[simp] theorem errorHandler_json (e : HttpError) (req : Request) (res : Response) :
    (errorHandler e req res).json = some [("error", e.message)] := rfl

@[simp] theorem run_ended (k : Handler) (req : Request) (b : ParsedBody) (res : Response) :
    (k.run req b res).ended = true := by
  cases k <;> rfl

/-! ## From the router to the response -/

/-- An `OPTIONS` request gets the preflight response of cors: no body parser, no
router and no error handler is entered. -/
theorem handle_options (req : Request) (h : req.method = Method.OPTIONS) :
    handle req =
      { req := req, body := ParsedBody.none, res := Response.preflight, error := none,
        trace := [] } := by
  rw [handle_eq, preRoute_options req h]
  simp [Layer.apply, finalHandler, Response.preflight]

/-- A pending error skips the router and is answered by the error handler. -/
theorem handle_error (req : Request) (b : ParsedBody) (e : HttpError)
    (h : preRoute req =
      { req := req, body := b, res := Response.passed, error := some e, trace := [] }) :
    handle req =
      { req := req, body := b, res := errorHandler e req Response.passed, error := some e,
        trace := [Event.errorHandler e] } := by
  rw [handle_eq, h]
  simp [Layer.apply, finalHandler, Response.passed]

/-- Without an error, a path outside the mount point falls through to the
default 404. -/
theorem handle_outside (req : Request) (b : ParsedBody)
    (h : preRoute req =
      { req := req, body := b, res := Response.passed, error := none, trace := [] })
    (hm : mountStrip "/api".data req.path.data = none) :
    handle req =
      { req := req, body := b,
        res := { Response.passed with statusCode := 404, ended := true },
        error := none, trace := [Event.notFound] } := by
  rw [handle_eq, h]
  simp [Layer.apply, finalHandler, Response.passed, hm]

/-- Without an error, a path under the mount point whose remainder and method
match a route is answered by the handler of that route. -/
theorem handle_route (req : Request) (b : ParsedBody) (url : List Char) (k : Handler)
    (h : preRoute req =
      { req := req, body := b, res := Response.passed, error := none, trace := [] })
    (hm : mountStrip "/api".data req.path.data = some url)
    (hr : Router.find routes req.method (String.mk url) = some k) :
    handle req =
      { req := req, body := b, res := k.run req b Response.passed, error := none,
        trace := [Event.router, Event.route k] } := by
  rw [handle_eq, h]
  simp [Layer.apply, finalHandler, Response.passed, hm, hr]

/-- Without an error, a path under the mount point that matches no route falls
through to the default 404. -/
theorem handle_no_route (req : Request) (b : ParsedBody) (url : List Char)
    (h : preRoute req =
      { req := req, body := b, res := Response.passed, error := none, trace := [] })
    (hm : mountStrip "/api".data req.path.data = some url)
    (hr : Router.find routes req.method (String.mk url) = none) :
    handle req =
      { req := req, body := b,
        res := { Response.passed with statusCode := 404, ended := true },
        error := none, trace := [Event.router, Event.notFound] } := by
  rw [handle_eq, h]
  simp [Layer.apply, finalHandler, Response.passed, hm, hr]

/-- The events of an exchange whose route handler `k` ran, by cases on how the
request was served. -/
theorem route_ran (req : Request) (k : Handler) (h : Event.route k ∈ (handle req).trace) :
    ∃ b, handle req =
      { req := req, body := b, res := k.run req b Response.passed, error := none,
        trace := [Event.router, Event.route k] } := by
  by_cases ho : req.method = Method.OPTIONS
  · rw [handle_options req ho] at h
    simp at h
  · rcases preRoute_cases req ho with ⟨e, hp⟩ | ⟨b, hp⟩
    · rw [handle_error req _ e hp] at h
      simp at h
    · cases hm : mountStrip "/api".data req.path.data with
      | none =>
        rw [handle_outside req b hp hm] at h
        simp at h
      | some url =>
        cases hr : Router.find routes req.method (String.mk url) with
        | none =>
          rw [handle_no_route req b url hp hm hr] at h
          simp at h
        | some k2 =>
          have hh := handle_route req b url k2 hp hm hr
          rw [hh] at h
          simp at h
          subst h
          exact ⟨b, hh⟩

/-! ## The routes -/

set_option maxRecDepth 100000 in
/-- The entity tag of the body of the `GET /` handler. -/
theorem etag_of_message :
    etag (JSON.stringify [("message", "Example route working!")]) =
      "W/\"24-sCwbmrcTJxaVbKeMaCq3wGmpO70\"" := by
  decide

set_option maxRecDepth 100000 in
/-- C1, counterexample: a `GET /api/` request with `If-None-Match: *`, or with
the entity tag of the body, is dispatched to the `GET /` handler and answered
304 without a body, not 200 with the message. -/
theorem get_conditional_not_200 :
    Event.route Handler.getRoot ∈ (handle (conditional Method.GET "/api/" "*")).trace ∧
    (handle (conditional Method.GET "/api/" "*")).res.statusCode = 304 ∧
    (handle (conditional Method.GET "/api/" "*")).res.body = none ∧
    (handle (conditional Method.GET "/api/"
      "W/\"24-sCwbmrcTJxaVbKeMaCq3wGmpO70\"")).res.statusCode = 304 := by
  decide

/-- C1, amended: for every request that the application dispatches to the
`GET /` handler, the handler passes to `res.json` exactly the object with the
single field message = "Example route working!" and the response is ended.  When
the request is not a fresh conditional request, in particular when it carries
neither `If-None-Match` nor `If-Modified-Since`, the status is 200 and, unless
the method is `HEAD`, the body is the JSON text of that object.  A fresh
conditional request is answered 304 without a body, and a `HEAD` request gets no
body. -/
theorem get_handler_response (req : Request)
    (h : Event.route Handler.getRoot ∈ (handle req).trace) :
    (handle req).res.json = some [("message", "Example route working!")] ∧
    (handle req).res.ended = true ∧
    (req.fresh 200 (etag (JSON.stringify [("message", "Example route working!")])) = false →
      (handle req).res.statusCode = 200 ∧
      (req.method ≠ Method.HEAD →
        (handle req).res.body =
          some (JSON.stringify [("message", "Example route working!")]))) ∧
    (req.header "if-none-match" = none → req.header "if-modified-since" = none →
      (handle req).res.statusCode = 200) ∧
    (req.fresh 200 (etag (JSON.stringify [("message", "Example route working!")])) = true →
      (handle req).res.statusCode = 304 ∧ (handle req).res.body = none) ∧
    (req.method = Method.HEAD → (handle req).res.body = none) := by
  obtain ⟨b, hb⟩ := route_ran req Handler.getRoot h
  rw [hb]
  refine ⟨rfl, rfl, fun hf => ?_, fun h1 h2 => ?_, fun hf => ?_, fun hm => ?_⟩
  · simp [Handler.run, Response.sendJson, Response.passed, hf]
  · simp [Handler.run, Response.sendJson, Response.passed, Request.fresh, freshHeaders,
      present, h1, h2]
  · simp [Handler.run, Response.sendJson, Response.passed, hf]
  · simp [Handler.run, Response.sendJson, Response.passed, hm]

theorem get_handler_response_witness :
    (handle (request Method.GET "/api/" none "")).res.statusCode = 200 ∧
    ((request Method.GET "/api/" none "").method ≠ Method.HEAD →
      (handle (request Method.GET "/api/" none "")).res.body =
        some (JSON.stringify [("message", "Example route working!")])) :=
  (get_handler_response (request Method.GET "/api/" none "") (by decide)).2.2.1 (by decide)

/-- The error of `express.json()` is 400 or 413, and there is none exactly for
text within the limit that opens an object or an array and parses. -/
theorem jsonError_cases (text : String) :
    (jsonError text = none ∧ text.utf8ByteSize ≤ bodyLimit ∧ strictJson text = true ∧
      JSON.parses text = true) ∨
    (∃ e, jsonError text = some e ∧ 400 ≤ e.status ∧ e.status < 600 ∧
      ¬ (text.utf8ByteSize ≤ bodyLimit ∧ strictJson text = true ∧ JSON.parses text = true)) := by
  unfold jsonError
  by_cases h1 : bodyLimit < text.utf8ByteSize
  · right
    refine ⟨_, if_pos h1, by decide, by decide, fun h => ?_⟩
    omega
  · by_cases h2 : (strictJson text && JSON.parses text) = true
    · left
      simp only [Bool.and_eq_true] at h2
      refine ⟨?_, by omega, h2.1, h2.2⟩
      simp [h1, h2.1, h2.2]
    · right
      simp only [h1, h2, if_false]
      refine ⟨_, rfl, by decide, by decide, fun h => h2 ?_⟩
      simp [h.2.1, h.2.2]

/-- The error of `express.urlencoded()` is 413, and there is none exactly for
text within both limits. -/
theorem urlencodedError_cases (text : String) :
    (urlencodedError text = none ∧ text.utf8ByteSize ≤ bodyLimit ∧
      text.data.count '&' < parameterLimit) ∨
    (∃ e, urlencodedError text = some e ∧ 400 ≤ e.status ∧ e.status < 600 ∧
      ¬ (text.utf8ByteSize ≤ bodyLimit ∧ text.data.count '&' < parameterLimit)) := by
  unfold urlencodedError
  by_cases h1 : bodyLimit < text.utf8ByteSize
  · right
    refine ⟨_, if_pos h1, by decide, by decide, fun h => ?_⟩
    omega
  · by_cases h2 : parameterLimit ≤ text.data.count '&'
    · right
      simp only [h1, h2, if_false, if_true]
      refine ⟨_, rfl, by decide, by decide, fun h => ?_⟩
      omega
    · left
      refine ⟨?_, by omega, by omega⟩
      simp [h1, h2]

/-- The exchange that reaches the router, by the request alone: the body
parsers let an accepted request through and raise a 4xx error for any other. -/
theorem preRoute_by_request (req : Request) (ho : req.method ≠ Method.OPTIONS) :
    (req.accepted ∧ ∃ b, preRoute req =
      { req := req, body := b, res := Response.passed, error := none, trace := [] }) ∨
    (¬ req.accepted ∧ ∃ e, 400 ≤ e.status ∧ e.status < 600 ∧ preRoute req =
      { req := req, body := ParsedBody.none, res := Response.passed, error := some e,
        trace := [] }) := by
  rw [preRoute_eq req ho, json_apply]
  unfold Request.accepted
  by_cases hp : req.payload = ""
  · left
    refine ⟨Or.inl hp, ParsedBody.none, ?_⟩
    simp [bodyParser, hp, Layer.apply, Response.passed]
  · by_cases hj : req.contentType = some "application/json"
    · rcases jsonError_cases req.payload with ⟨h0, h1, h2, h3⟩ | ⟨e, h0, hlo, hhi, hn⟩
      · left
        refine ⟨Or.inr (Or.inr (Or.inl ⟨hj, h1, h2, h3⟩)), ParsedBody.json req.payload, ?_⟩
        simp [bodyParser, hp, hj, h0, Layer.apply, Response.passed]
      · right
        refine ⟨?_, e, hlo, hhi, ?_⟩
        · simp [hp, hj, hn]
        · simp [bodyParser, hp, hj, h0, Layer.apply, Response.passed]
    · by_cases hu : req.contentType = some "application/x-www-form-urlencoded"
      · rcases urlencodedError_cases req.payload with ⟨h0, h1, h2⟩ | ⟨e, h0, hlo, hhi, hn⟩
        · left
          refine ⟨Or.inr (Or.inr (Or.inr ⟨hu, h1, h2⟩)), ParsedBody.urlencoded req.payload, ?_⟩
          simp [bodyParser, hp, hu, h0, Layer.apply, Response.passed]
        · right
          refine ⟨?_, e, hlo, hhi, ?_⟩
          · simp [hp, hu, hn]
          · simp [bodyParser, hp, hu, h0, Layer.apply, Response.passed]
      · left
        refine ⟨Or.inr (Or.inl ⟨hj, hu⟩), ParsedBody.none, ?_⟩
        simp [bodyParser, hp, hj, hu, Layer.apply, Response.passed]

/-- An accepted `POST` request to `/api/` is answered by the `POST /` handler. -/
theorem post_api_exchange (req : Request) (hm : req.method = Method.POST)
    (hp : req.path = "/api/") (ha : req.accepted) :
    ∃ b, handle req =
      { req := req, body := b, res := Handler.postRoot.run req b Response.passed,
        error := none, trace := [Event.router, Event.route Handler.postRoot] } := by
  have ho : req.method ≠ Method.OPTIONS := by simp [hm]
  rcases preRoute_by_request req ho with ⟨-, b, hq⟩ | ⟨hn, -⟩
  · refine ⟨b, handle_route req b ['/'] Handler.postRoot hq ?_ ?_⟩
    · rw [hp]
      decide
    · rw [hm]
      decide
  · exact absurd ha hn

/-- The response of the `POST /` handler to a `POST` request. -/
theorem post_run (req : Request) (b : ParsedBody) (hm : req.method = Method.POST) :
    Handler.postRoot.run req b Response.passed =
      { statusCode := 200
        headers := Response.passed.headers ++
          [("Content-Type", "application/json; charset=utf-8"),
           ("ETag", etag (JSON.stringify [("message", "POST to example route")]))]
        json := some [("message", "POST to example route")]
        body := some (JSON.stringify [("message", "POST to example route")])
        ended := true } := by
  have hf : req.fresh 200 (etag (JSON.stringify [("message", "POST to example route")])) = false :=
    not_fresh_of_method req _ _ (by simp [hm]) (by simp [hm])
  simp [Handler.run, Response.sendJson, Response.passed, hf, hm]

/-- C2, counterexample: a `POST` to `/api/` whose JSON body is the text
`{invalid` is not answered by the `POST /` handler: the status is 400 and the
body is the error object. -/
theorem post_malformed_body_rejected :
    (handle (request Method.POST "/api/" (some "application/json") "\x7binvalid")).res.statusCode
      = 400 ∧
    (handle (request Method.POST "/api/" (some "application/json") "\x7binvalid")).res.json
      = some [("error", "Unexpected token in JSON")] ∧
    (handle (request Method.POST "/api/" (some "application/json") "\x7binvalid")).res.json
      ≠ some [("message", "POST to example route")] := by
  decide

/-- C2, amended: for every `POST` request to `/api/` whose body the body
parsers let through (no payload; a media type other than JSON and URL-encoded;
JSON text of at most 100kb that is an object or an array; URL-encoded text of at
most 100kb with fewer than 1000 separators), the response has status 200 and its
JSON body is the single field message = "POST to example route", and any two
such requests get the same response.  Every other `POST` request to `/api/` is
answered by the error handler with a 4xx/5xx status, and the handler does not
run. -/
theorem post_api_response (req other : Request)
    (hm : req.method = Method.POST) (hp : req.path = "/api/")
    (hm2 : other.method = Method.POST) (hp2 : other.path = "/api/") :
    (req.accepted →
      (handle req).res.statusCode = 200 ∧
      (handle req).res.json = some [("message", "POST to example route")] ∧
      (handle req).res.body = some (JSON.stringify [("message", "POST to example route")]) ∧
      (handle req).trace = [Event.router, Event.route Handler.postRoot]) ∧
    (req.accepted → other.accepted → (handle req).res = (handle other).res) ∧
    (¬ req.accepted →
      Event.route Handler.postRoot ∉ (handle req).trace ∧
      400 ≤ (handle req).res.statusCode ∧ (handle req).res.statusCode < 600) := by
  refine ⟨fun ha => ?_, fun ha ha2 => ?_, fun hn => ?_⟩
  · obtain ⟨b, hb⟩ := post_api_exchange req hm hp ha
    rw [hb, post_run req b hm]
    exact ⟨rfl, rfl, rfl, rfl⟩
  · obtain ⟨b, hb⟩ := post_api_exchange req hm hp ha
    obtain ⟨b2, hb2⟩ := post_api_exchange other hm2 hp2 ha2
    rw [hb, hb2, post_run req b hm, post_run other b2 hm2]
  · have ho : req.method ≠ Method.OPTIONS := by simp [hm]
    rcases preRoute_by_request req ho with ⟨ha, -⟩ | ⟨-, e, hlo, hhi, hq⟩
    · exact absurd ha hn
    · rw [handle_error req _ e hq]
      simp [errorHandler_statusCode, hlo, hhi]

theorem post_api_response_witness :
    ((handle (request Method.POST "/api/" none "")).res.statusCode = 200 ∧
      (handle (request Method.POST "/api/" none "")).res.json =
        some [("message", "POST to example route")] ∧
      (handle (request Method.POST "/api/" none "")).res.body =
        some (JSON.stringify [("message", "POST to example route")]) ∧
      (handle (request Method.POST "/api/" none "")).trace =
        [Event.router, Event.route Handler.postRoot]) ∧
    (handle (request Method.POST "/api/" none "")).res =
      (handle (request Method.POST "/api/" (some "application/json")
        "\x7b\"name\": [1, 2]\x7d")).res :=
  ⟨(post_api_response (request Method.POST "/api/" none "")
      (request Method.POST "/api/" (some "application/json") "\x7b\"name\": [1, 2]\x7d")
      rfl rfl rfl rfl).1 (Or.inl rfl),
   (post_api_response (request Method.POST "/api/" none "")
      (request Method.POST "/api/" (some "application/json") "\x7b\"name\": [1, 2]\x7d")
      rfl rfl rfl rfl).2.1 (Or.inl rfl)
      (Or.inr (Or.inr (Or.inl ⟨rfl, by decide, by decide, by decide⟩)))⟩

/-! ## Paths outside the mount point -/

/-- C7, counterexample: an `OPTIONS` request to `/other`, a path that is not
under `/api`, is answered 204 by cors, not 404. -/
theorem options_outside_not_404 :
    underMount "/api" (request Method.OPTIONS "/other" none "").path = false ∧
    (handle (request Method.OPTIONS "/other" none "")).res.statusCode = 204 := by
  decide

/-- C7, amended: for every request whose path is not under `/api`, the request is
not dispatched to the router and no route handler runs; the response status is
404 unless the method is `OPTIONS` (answered by cors) or a body parser rejects
the body (answered by the error handler). -/
theorem outside_mount (req : Request) (h : underMount "/api" req.path = false) :
    Event.router ∉ (handle req).trace ∧
    (∀ k, Event.route k ∉ (handle req).trace) ∧
    (req.method ≠ Method.OPTIONS → (handle req).error = none →
      (handle req).res.statusCode = 404) := by
  have hm : mountStrip "/api".data req.path.data = none := by
    simpa [underMount] using h
  by_cases ho : req.method = Method.OPTIONS
  · rw [handle_options req ho]
    simp [ho]
  · rcases preRoute_cases req ho with ⟨e, hq⟩ | ⟨b, hq⟩
    · rw [handle_error req _ e hq]
      simp
    · rw [handle_outside req b hq hm]
      simp

theorem outside_mount_witness :
    (handle (request Method.DELETE "/apix/" none "")).res.statusCode = 404 :=
  (outside_mount (request Method.DELETE "/apix/" none "") (by decide)).2.2
    (by decide) (by decide)

/-! ## Malformed JSON bodies -/

/-- A payload that `JSON.parse` does not accept is rejected by `express.json()`,
with status 400 or 413. -/
theorem jsonError_of_not_parses (text : String) (h : JSON.parses text = false) :
    ∃ e, jsonError text = some e ∧ 400 ≤ e.status ∧ e.status < 600 := by
  unfold jsonError
  split
  · exact ⟨_, rfl, by decide, by decide⟩
  · simp only [h, Bool.and_false, Bool.false_eq_true, if_false]
    exact ⟨_, rfl, by decide, by decide⟩

/-- C8, counterexample: an `OPTIONS` request to `/api/` with the JSON body
`{invalid` is answered 204 by cors; no body parser signals an error and the
error handler does not run. -/
theorem options_malformed_body_not_rejected :
    JSON.parses "\x7binvalid" = false ∧
    (handle (request Method.OPTIONS "/api/" (some "application/json") "\x7binvalid")).error
      = none ∧
    (handle (request Method.OPTIONS "/api/" (some "application/json") "\x7binvalid")).trace
      = [] ∧
    (handle (request Method.OPTIONS "/api/" (some "application/json")
      "\x7binvalid")).res.statusCode = 204 := by
  decide

/-- C8, amended: for every request other than `OPTIONS`, to `/api/` or to any
other path, with `Content-Type: application/json` whose body is not empty and is
not parsable JSON, the JSON body parser signals an error, no route handler runs and the
router is not entered, and the response is the one produced by the error
handler, with a status in the 4xx/5xx range. -/
theorem malformed_json_rejected (req : Request) (ho : req.method ≠ Method.OPTIONS)
    (hct : req.contentType = some "application/json")
    (hne : req.payload ≠ "") (hj : JSON.parses req.payload = false) :
    ∃ e, jsonError req.payload = some e ∧
      (handle req).error = some e ∧
      (handle req).trace = [Event.errorHandler e] ∧
      (handle req).res = errorHandler e req Response.passed ∧
      (handle req).res.json = some [("error", e.message)] ∧
      400 ≤ (handle req).res.statusCode ∧ (handle req).res.statusCode < 600 := by
  obtain ⟨e, he, hlo, hhi⟩ := jsonError_of_not_parses req.payload hj
  have hh := handle_error req _ e (preRoute_json_error req ho hct hne e he)
  refine ⟨e, he, ?_, ?_, ?_, ?_, ?_⟩
  · rw [hh]
  · rw [hh]
  · rw [hh]
  · rw [hh]
    simp
  · rw [hh]
    simp [errorHandler_statusCode, hlo, hhi]

theorem malformed_json_rejected_witness :
    ∃ e, jsonError "\x7binvalid" = some e ∧
      (handle (request Method.POST "/api/" (some "application/json") "\x7binvalid")).error
        = some e ∧
      (handle (request Method.POST "/api/" (some "application/json") "\x7binvalid")).trace
        = [Event.errorHandler e] ∧
      (handle (request Method.POST "/api/" (some "application/json") "\x7binvalid")).res
        = errorHandler e
          (request Method.POST "/api/" (some "application/json") "\x7binvalid")
          Response.passed ∧
      (handle (request Method.POST "/api/" (some "application/json") "\x7binvalid")).res.json
        = some [("error", e.message)] ∧
      400 ≤ (handle (request Method.POST "/api/" (some "application/json")
        "\x7binvalid")).res.statusCode ∧
      (handle (request Method.POST "/api/" (some "application/json")
        "\x7binvalid")).res.statusCode < 600 :=
  malformed_json_rejected (request Method.POST "/api/" (some "application/json") "\x7binvalid")
    (by decide) rfl (by decide) (by decide)

end Boilerplate

